import Mathlib

/-!
Verification of the long-range nonbonded force layer of this GROMACS tree.

The embedded code is `src/gromacs/mdlib/force.cpp`: the per-thread Ewald
correction records (`ewald_corr_thread_t`), their clearing and reduction
(`clearEwaldThreadOutput`, `reduceEwaldThreadOuput`), and the orchestration
entry point `calculateLongRangeNonbondeds`.  The external collaborators whose
bodies are not part of this tree (`ewald_LRcorrection`, `gmx_pme_do`,
`gmx_pme_calc_energy`, `do_ewald`) are modelled as opaque result records
passed in as inputs, so that the orchestration logic itself is embedded
faithfully.  Scalars are modelled as real numbers.
-/

/-- A 3x3 tensor of reals, modelling the C `matrix`/`tensor` type
(`real[3][3]`). -/
def Matrix3 : Type := Fin 3 → Fin 3 → ℝ

/-- `clear_mat` from `gromacs/math/vec.h`: the all-zero 3x3 matrix. -/
def clear_mat : Matrix3 := fun _ _ => 0

/-- `m_add(a, b, dest)` from `gromacs/math/vec.h`: element-wise sum of two
3x3 matrices. -/
def m_add (a b : Matrix3) : Matrix3 := fun i j => a i j + b i j

/-- The per-thread Ewald correction record `ewald_corr_thread_t`
(declared in `gromacs/mdlib/forcerec_threading.h`, used throughout
`force.cpp`): Coulomb and LJ correction energies, dV/dlambda for the
Coulomb and Vdw coupling types, and a virial tensor for each of Coulomb
and LJ. -/
@[ext]
structure ewald_corr_thread_t where
  Vcorr_q : ℝ
  Vcorr_lj : ℝ
  dvdlCoul : ℝ
  dvdlVdw : ℝ
  vir_q : Matrix3
  vir_lj : Matrix3

/-- `clearEwaldThreadOutput` (force.cpp:76-84): the record with every
field zeroed.  The C function assigns this state to a record in place. -/
def clearEwaldThreadOutput : ewald_corr_thread_t :=
  { Vcorr_q := 0
    Vcorr_lj := 0
    dvdlCoul := 0
    dvdlVdw := 0
    vir_q := clear_mat
    vir_lj := clear_mat }

/-- One iteration of the loop body of `reduceEwaldThreadOuput`
(force.cpp:92-99): accumulate the fields of `src` into `dest`. -/
def accumEwc (dest src : ewald_corr_thread_t) : ewald_corr_thread_t :=
  { Vcorr_q := dest.Vcorr_q + src.Vcorr_q
    Vcorr_lj := dest.Vcorr_lj + src.Vcorr_lj
    dvdlCoul := dest.dvdlCoul + src.dvdlCoul
    dvdlVdw := dest.dvdlVdw + src.dvdlVdw
    vir_q := m_add dest.vir_q src.vir_q
    vir_lj := m_add dest.vir_lj src.vir_lj }

/-- `reduceEwaldThreadOuput(nthreads, ewc_t)` (force.cpp:86-101), with the
source's spelling: fold the records of threads `1 .. nthreads-1` into the
record at index 0; every other index is untouched. -/
def reduceEwaldThreadOuput (nthreads : ℕ) (ewc_t : ℕ → ewald_corr_thread_t) :
    ℕ → ewald_corr_thread_t :=
  fun i =>
    if i = 0 then
      (List.range' 1 (nthreads - 1)).foldl (fun dest t => accumEwc dest (ewc_t t)) (ewc_t 0)
    else ewc_t i

/-- The record whose every field is the sum, over threads `0 .. n-1`, of
that field of the per-thread records. -/
def ewcSum (n : ℕ) (ewc_t : ℕ → ewald_corr_thread_t) : ewald_corr_thread_t :=
  { Vcorr_q := ∑ t ∈ Finset.range n, (ewc_t t).Vcorr_q
    Vcorr_lj := ∑ t ∈ Finset.range n, (ewc_t t).Vcorr_lj
    dvdlCoul := ∑ t ∈ Finset.range n, (ewc_t t).dvdlCoul
    dvdlVdw := ∑ t ∈ Finset.range n, (ewc_t t).dvdlVdw
    vir_q := fun i j => ∑ t ∈ Finset.range n, (ewc_t t).vir_q i j
    vir_lj := fun i j => ∑ t ∈ Finset.range n, (ewc_t t).vir_lj i j }

/-- A per-particle force buffer (`forceWithVirial->force_`), modelled as a
map from particle index to a 3-vector. -/
def Forces : Type := ℕ → Fin 3 → ℝ

/-- The flags of `gmx::StepWorkload` read by `calculateLongRangeNonbondeds`. -/
structure StepWorkload where
  computeNonbondedForces : Bool
  stateChanged : Bool

/-- The run-configuration facts read by `calculateLongRangeNonbondeds`
(force.cpp:118-127, 139, 192, 205, 276): interaction-type predicates on
`fr->ic`, PME duty and run mode, the surface-term predicate on `ir`, the
test-particle-insertion count `fr->n_tpi` and the Ewald correction thread
count `fr->nthread_ewc`. -/
structure LongRangeConfig where
  /-- `EEL_PME(fr->ic->eeltype)` -/
  eelPme : Bool
  /-- `fr->ic->eeltype == CoulombInteractionType::Ewald` -/
  eelEwald : Bool
  /-- `EVDW_PME(fr->ic->vdwtype)` -/
  vdwPme : Bool
  /-- `thisRankHasDuty(cr, DUTY_PME)` -/
  rankHasPmeDuty : Bool
  /-- `pme_run_mode(fr->pmedata) == PmeRunMode::CPU` -/
  pmeRunModeCpu : Bool
  /-- `haveEwaldSurfaceContribution(ir)` -/
  haveEwaldSurfaceTerm : Bool
  /-- `fr->n_tpi` -/
  n_tpi : ℕ
  /-- `fr->nthread_ewc` -/
  nthread_ewc : ℕ

/-- `computePmeOnCpu` (force.cpp:118-120). -/
def computePmeOnCpu (c : LongRangeConfig) : Bool :=
  (c.eelPme || c.vdwPme) && c.rankHasPmeDuty && c.pmeRunModeCpu

/-- `EEL_PME_EWALD(fr->ic->eeltype)`: PME-family Coulomb or plain Ewald. -/
def eelPmeEwald (c : LongRangeConfig) : Bool :=
  c.eelPme || c.eelEwald

/-- The guard of the long-range branch (force.cpp:127-128). -/
def longRangeGuard (c : LongRangeConfig) (sw : StepWorkload) : Bool :=
  (computePmeOnCpu c || c.eelEwald || c.haveEwaldSurfaceTerm) && sw.computeNonbondedForces

/-- What one per-thread call of the external `ewald_LRcorrection`
(force.cpp:163-181) writes through its out-pointers: a contribution to
`ewc_t.Vcorr_q` and to `ewc_t.dvdl[Coul]`. -/
structure LRCorrResult where
  dVcorr_q : ℝ
  dDvdlCoul : ℝ

/-- The all-zero `ewald_LRcorrection` contribution. -/
def zeroLRCorr : LRCorrResult := { dVcorr_q := 0, dDvdlCoul := 0 }

/-- What the external `ewald_charge_correction` call (force.cpp:196-202)
contributes: its return value added to `Vcorr_q`, plus increments to the
Coulomb dV/dlambda and the Coulomb virial through its out-pointers. -/
structure ChargeCorrResult where
  energy : ℝ
  dDvdlCoul : ℝ
  dVir_q : Matrix3

/-- What the external `gmx_pme_do` call (force.cpp:218-248) produces: a
status code, the reciprocal energies written to `*Vlr_q`/`*Vlr_lj`,
increments to the two virial tensors and the two dV/dlambda slots, and an
in-place update of the force buffer. -/
structure PmeDoResult where
  status : ℤ
  Vlr_q : ℝ
  Vlr_lj : ℝ
  dVir_q : Matrix3
  dVir_lj : Matrix3
  dDvdlCoul : ℝ
  dDvdlVdw : ℝ
  forceUpdate : Forces → Forces

/-- What the external `do_ewald` call (force.cpp:278-290) produces: the
reciprocal Coulomb energy (its return value, assigned to `Vlr_q`),
increments to the Coulomb virial and dV/dlambda, and an in-place update of
the force buffer. -/
structure DoEwaldResult where
  Vlr_q : ℝ
  dVir_q : Matrix3
  dDvdlCoul : ℝ
  forceUpdate : Forces → Forces

/-- The external collaborators of `calculateLongRangeNonbondeds`, whose
bodies live outside this tree.  `surfaceWork t` is the result of the
`ewald_LRcorrection` call of thread `t`; `none` models that call raising
an exception (caught by `GMX_CATCH_ALL_AND_EXIT_WITH_FATAL_ERROR`).
`surfaceForces` is the aggregate in-place force update of the parallel
region.  `pmeTpiEnergy` is the return value of `gmx_pme_calc_energy`. -/
structure Externals where
  surfaceWork : ℕ → Option LRCorrResult
  surfaceForces : Forces → Forces
  chargeCorr : ChargeCorrResult
  pmeDo : PmeDoResult
  pmeTpiEnergy : ℝ
  doEwald : DoEwaldResult

/-- Trace events recording the externally visible actions of one
`calculateLongRangeNonbondeds` call, in program order. -/
inductive Event where
  | surfaceDispatch
  | chargeCorrection
  | closeDDBalanceRegion
  | pmeDoCall
  | pmeCalcEnergy
  | doEwaldCall
  | mergeOutputs
  | fatalError
deriving DecidableEq, Repr

/-- The caller-owned accumulators that lines 296-303 of force.cpp write:
the `forceWithVirial` virial, `enerd->dvdl_lin[Coul]`,
`enerd->dvdl_lin[Vdw]`, `enerd->term[F_COUL_RECIP]` and
`enerd->term[F_LJ_RECIP]`. -/
structure Accumulators where
  virial : Matrix3
  dvdlLinCoul : ℝ
  dvdlLinVdw : ℝ
  termCoulRecip : ℝ
  termLJRecip : ℝ

/-- The state of the guarded branch of `calculateLongRangeNonbondeds`
just before the merge (force.cpp:293): `Vlr_q`, `Vlr_lj`, the per-thread
record array `fr->ewc_t` (index 0 is `ewaldOutput`), the force buffer, a
fatal-abort flag, and the event trace so far. -/
structure BranchInternals where
  Vlr_q : ℝ
  Vlr_lj : ℝ
  ewc : ℕ → ewald_corr_thread_t
  forces : Forces
  fatal : Bool
  trace : List Event

/-- Clearing of thread 0's record by the caller (force.cpp:136-137),
leaving all other records untouched. -/
def clearThreadZero (ewc : ℕ → ewald_corr_thread_t) : ℕ → ewald_corr_thread_t :=
  fun t => if t = 0 then clearEwaldThreadOutput else ewc t

/-- The record thread `t` holds just before its `ewald_LRcorrection` call
(force.cpp:152-156): thread 0 uses its record as cleared by the caller;
every thread `t > 0` clears its own record first. -/
def threadPreWriteRecord (ewc : ℕ → ewald_corr_thread_t) (t : ℕ) : ewald_corr_thread_t :=
  if t = 0 then ewc 0 else clearEwaldThreadOutput

/-- Accumulate one thread's `ewald_LRcorrection` out-parameters into its
record (force.cpp:179-181). -/
def applyLRCorr (e : ewald_corr_thread_t) (r : LRCorrResult) : ewald_corr_thread_t :=
  { e with
    Vcorr_q := e.Vcorr_q + r.dVcorr_q
    dvdlCoul := e.dvdlCoul + r.dDvdlCoul }

/-- Whether any thread of the parallel region raises (force.cpp:150-183):
`GMX_CATCH_ALL_AND_EXIT_WITH_FATAL_ERROR` turns any such exception into a
fatal program abort. -/
def surfaceWorkRaises (work : ℕ → Option LRCorrResult) (nthreads : ℕ) : Bool :=
  (List.range nthreads).any fun t => (work t).isNone

/-- The per-thread records after the parallel region of force.cpp:147-184
(no thread raised): each thread `t < nthreads` starts from its pre-write
record and accumulates its `ewald_LRcorrection` result. -/
def surfaceDispatchRecords (nthreads : ℕ) (work : ℕ → Option LRCorrResult)
    (ewc : ℕ → ewald_corr_thread_t) : ℕ → ewald_corr_thread_t :=
  fun t =>
    if t < nthreads then applyLRCorr (threadPreWriteRecord ewc t) ((work t).getD zeroLRCorr)
    else ewc t

/-- Update the record at index 0 (the `ewaldOutput` reference of
force.cpp:136) and leave all others untouched. -/
def updEwc0 (ewc : ℕ → ewald_corr_thread_t) (f : ewald_corr_thread_t → ewald_corr_thread_t) :
    ℕ → ewald_corr_thread_t :=
  fun t => if t = 0 then f (ewc 0) else ewc t

/-- Accumulate the `ewald_charge_correction` contributions into
`ewaldOutput` (force.cpp:196-202). -/
def applyChargeCorr (r : ChargeCorrResult) (e : ewald_corr_thread_t) : ewald_corr_thread_t :=
  { e with
    Vcorr_q := e.Vcorr_q + r.energy
    dvdlCoul := e.dvdlCoul + r.dDvdlCoul
    vir_q := m_add e.vir_q r.dVir_q }

/-- Accumulate the `gmx_pme_do` out-parameters into `ewaldOutput`
(force.cpp:240-247). -/
def applyPmeDo (r : PmeDoResult) (e : ewald_corr_thread_t) : ewald_corr_thread_t :=
  { e with
    vir_q := m_add e.vir_q r.dVir_q
    vir_lj := m_add e.vir_lj r.dVir_lj
    dvdlCoul := e.dvdlCoul + r.dDvdlCoul
    dvdlVdw := e.dvdlVdw + r.dDvdlVdw }

/-- Accumulate the `do_ewald` out-parameters into `ewaldOutput`
(force.cpp:286-289). -/
def applyDoEwald (r : DoEwaldResult) (e : ewald_corr_thread_t) : ewald_corr_thread_t :=
  { e with
    vir_q := m_add e.vir_q r.dVir_q
    dvdlCoul := e.dvdlCoul + r.dDvdlCoul }

/-- The plain-Ewald block (force.cpp:276-291): when
`fr->ic->eeltype == CoulombInteractionType::Ewald`, `do_ewald` assigns
`Vlr_q` and accumulates virial and dV/dlambda into `ewaldOutput`. -/
def ewaldPhase (c : LongRangeConfig) (ext : Externals) (ewc : ℕ → ewald_corr_thread_t)
    (vq vlj : ℝ) (f : Forces) (tr : List Event) : BranchInternals :=
  if c.eelEwald then
    { Vlr_q := ext.doEwald.Vlr_q
      Vlr_lj := vlj
      ewc := updEwc0 ewc (applyDoEwald ext.doEwald)
      forces := ext.doEwald.forceUpdate f
      fatal := false
      trace := tr ++ [Event.doEwaldCall] }
  else
    { Vlr_q := vq, Vlr_lj := vlj, ewc := ewc, forces := f, fatal := false, trace := tr }

/-- The test-particle-insertion block (force.cpp:263-272): when
`fr->n_tpi > 0`, `gmx_pme_calc_energy` overwrites `Vlr_q`. -/
def tpiPhase (c : LongRangeConfig) (ext : Externals) (ewc : ℕ → ewald_corr_thread_t)
    (vq vlj : ℝ) (f : Forces) (tr : List Event) : BranchInternals :=
  if 0 < c.n_tpi then
    ewaldPhase c ext ewc ext.pmeTpiEnergy vlj f (tr ++ [Event.pmeCalcEnergy])
  else
    ewaldPhase c ext ewc vq vlj f tr

/-- The CPU reciprocal-PME block (force.cpp:205-273): when active, the
load-balance region is closed, `gmx_pme_do` runs, and a non-zero status
aborts with `gmx_fatal` before anything else happens. -/
def pmePhase (c : LongRangeConfig) (sw : StepWorkload) (ext : Externals)
    (ewc : ℕ → ewald_corr_thread_t) (f : Forces) (tr : List Event) : BranchInternals :=
  if computePmeOnCpu c then
    if c.n_tpi = 0 || sw.stateChanged then
      let ewc2 := updEwc0 ewc (applyPmeDo ext.pmeDo)
      let f2 := ext.pmeDo.forceUpdate f
      let tr2 := tr ++ [Event.closeDDBalanceRegion, Event.pmeDoCall]
      if ext.pmeDo.status = 0 then
        tpiPhase c ext ewc2 ext.pmeDo.Vlr_q ext.pmeDo.Vlr_lj f2 tr2
      else
        { Vlr_q := ext.pmeDo.Vlr_q, Vlr_lj := ext.pmeDo.Vlr_lj, ewc := ewc2, forces := f2,
          fatal := true, trace := tr2 }
    else
      tpiPhase c ext ewc 0 0 f tr
  else
    ewaldPhase c ext ewc 0 0 f tr

/-- The part of the guarded branch after the parallel surface region:
net-charge correction (force.cpp:192-203), then the PME, TPI and
plain-Ewald blocks. -/
def afterSurface (c : LongRangeConfig) (sw : StepWorkload) (ext : Externals)
    (ewc : ℕ → ewald_corr_thread_t) (f : Forces) (tr : List Event) : BranchInternals :=
  if eelPmeEwald c && c.n_tpi = 0 then
    pmePhase c sw ext (updEwc0 ewc (applyChargeCorr ext.chargeCorr)) f
      (tr ++ [Event.chargeCorrection])
  else
    pmePhase c sw ext ewc f tr

/-- The guarded branch of `calculateLongRangeNonbondeds`
(force.cpp:130-291): clear thread 0's record, run the parallel surface
dispatch and thread reduction when the surface term is active, then the
remaining phases.  An exception in the parallel region aborts at once. -/
def longRangeBranch (c : LongRangeConfig) (sw : StepWorkload) (ext : Externals)
    (ewc0 : ℕ → ewald_corr_thread_t) (f : Forces) : BranchInternals :=
  let ewc1 := clearThreadZero ewc0
  if eelPmeEwald c || c.vdwPme then
    if c.haveEwaldSurfaceTerm then
      if surfaceWorkRaises ext.surfaceWork c.nthread_ewc then
        { Vlr_q := 0, Vlr_lj := 0, ewc := ewc1, forces := f, fatal := true,
          trace := [Event.surfaceDispatch] }
      else
        let ewc2 := surfaceDispatchRecords c.nthread_ewc ext.surfaceWork ewc1
        let ewc3 := if 1 < c.nthread_ewc then reduceEwaldThreadOuput c.nthread_ewc ewc2 else ewc2
        afterSurface c sw ext ewc3 (ext.surfaceForces f) [Event.surfaceDispatch]
    else
      afterSurface c sw ext ewc1 f []
  else
    ewaldPhase c ext ewc1 0 0 f []

/-- The merge of the branch outputs into the caller's accumulators
(force.cpp:293-303): both virial tensors are added to the virial
accumulator, the dV/dlambda terms are added to `dvdl_lin`, and the two
reciprocal energy-term slots are assigned `Vlr + Vcorr`. -/
def mergeLongRangeOutputs (acc : Accumulators) (b : BranchInternals) : Accumulators :=
  { virial := m_add (m_add acc.virial (b.ewc 0).vir_q) (b.ewc 0).vir_lj
    dvdlLinCoul := acc.dvdlLinCoul + (b.ewc 0).dvdlCoul
    dvdlLinVdw := acc.dvdlLinVdw + (b.ewc 0).dvdlVdw
    termCoulRecip := b.Vlr_q + (b.ewc 0).Vcorr_q
    termLJRecip := b.Vlr_lj + (b.ewc 0).Vcorr_lj }

/-- The result of one `calculateLongRangeNonbondeds` call: final
accumulators, per-thread records, force buffer, fatal flag, and trace. -/
structure LongRangeResult where
  acc : Accumulators
  ewc : ℕ → ewald_corr_thread_t
  forces : Forces
  fatal : Bool
  trace : List Event

/-- `calculateLongRangeNonbondeds` (force.cpp:103-326): when the guard of
line 127 holds, run the branch and, unless it aborted fatally, merge its
outputs into the caller's accumulators; otherwise leave every caller
accumulator untouched. -/
def calculateLongRangeNonbondeds (c : LongRangeConfig) (sw : StepWorkload) (ext : Externals)
    (acc0 : Accumulators) (ewc0 : ℕ → ewald_corr_thread_t) (f0 : Forces) : LongRangeResult :=
  if longRangeGuard c sw then
    let b := longRangeBranch c sw ext ewc0 f0
    if b.fatal then
      { acc := acc0, ewc := b.ewc, forces := b.forces, fatal := true,
        trace := b.trace ++ [Event.fatalError] }
    else
      { acc := mergeLongRangeOutputs acc0 b, ewc := b.ewc, forces := b.forces, fatal := false,
        trace := b.trace ++ [Event.mergeOutputs] }
  else
    { acc := acc0, ewc := ewc0, forces := f0, fatal := false, trace := [] }

/-- The complementary error function over the reals,
`erfc x = 1 - (2 / sqrt pi) * integral of exp(-t^2) for t from 0 to x`. -/
noncomputable def erfc (x : ℝ) : ℝ :=
  1 - (2 / Real.sqrt Real.pi) * ∫ t in (0 : ℝ)..x, Real.exp (-(t ^ 2))

/-- Modelled from the spec: the body of `v_q_ewald_lr` (declared at
`src/gromacs/tables/forcetable.h:116`, defined in `forcetable.cpp`, which
is not part of this tree).  The spec states that it returns the
complementary-error-function-based real-space remainder of the Coulomb
`1/r` potential, `erfc(beta * r) / r`.  It is a pure function of its two
arguments: deterministic, with no side effects. -/
noncomputable def v_q_ewald_lr (beta r : ℝ) : ℝ :=
  erfc (beta * r) / r

/-- Modelled from the spec: the body of `ewald_charge_correction`
(declared at `src/gromacs/ewald/ewald.h:121-126`, defined in `ewald.cpp`,
which is not part of this tree).  The spec fixes the correction energy as
`-(pi / (2 beta^2 V)) * Q^2` times the Coulomb constant, and that the
virial contribution vanishes for a neutral system; the virial is taken as
a diagonal tensor proportional to the correction energy.  Returns the
energy together with the virial contribution. -/
noncomputable def ewald_charge_correction (coulombK beta qTot vol : ℝ) : ℝ × Matrix3 :=
  let energy := -(Real.pi / (2 * beta ^ 2 * vol)) * qTot ^ 2 * coulombK
  (energy, fun i j => if i = j then energy / 2 else 0)

/-- Whether the parallel surface-correction region of force.cpp:142-190
aborts the step because some per-thread unit of work raised. -/
def surfaceAbortCondition (c : LongRangeConfig) (sw : StepWorkload) (ext : Externals) : Bool :=
  longRangeGuard c sw && (eelPmeEwald c || c.vdwPme) && c.haveEwaldSurfaceTerm
    && surfaceWorkRaises ext.surfaceWork c.nthread_ewc

/-- Whether the reciprocal solver runs this step and returns a non-zero
status, which force.cpp:250-253 escalates to `gmx_fatal`. -/
def pmeStatusAbortCondition (c : LongRangeConfig) (sw : StepWorkload) (ext : Externals) : Bool :=
  longRangeGuard c sw && (eelPmeEwald c || c.vdwPme) && computePmeOnCpu c
    && (decide (c.n_tpi = 0) || sw.stateChanged) && !(decide (ext.pmeDo.status = 0))

/-- A sample per-thread record array used to instantiate theorems. -/
def ewcSample : ℕ → ewald_corr_thread_t := fun t =>
  { Vcorr_q := (t : ℝ)
    Vcorr_lj := 2 * (t : ℝ)
    dvdlCoul := 1
    dvdlVdw := (t : ℝ) + 1
    vir_q := fun i j => (t : ℝ) + (i : ℝ) + (j : ℝ)
    vir_lj := fun _ _ => (t : ℝ) }

/-- A sample force buffer used to instantiate theorems. -/
def forcesSample : Forces := fun _ _ => 0

/-- Sample caller accumulators used to instantiate theorems. -/
def accSample : Accumulators :=
  { virial := clear_mat, dvdlLinCoul := 3, dvdlLinVdw := 4, termCoulRecip := 5, termLJRecip := 6 }

/-- A sample set of external-collaborator results used to instantiate
theorems: all contributions zero, status 0, identity force updates. -/
def extSample : Externals :=
  { surfaceWork := fun _ => some zeroLRCorr
    surfaceForces := id
    chargeCorr := { energy := 2, dDvdlCoul := 0, dVir_q := clear_mat }
    pmeDo :=
      { status := 0, Vlr_q := 7, Vlr_lj := 8, dVir_q := clear_mat, dVir_lj := clear_mat,
        dDvdlCoul := 0, dDvdlVdw := 0, forceUpdate := id }
    pmeTpiEnergy := 9
    doEwald := { Vlr_q := 10, dVir_q := clear_mat, dDvdlCoul := 0, forceUpdate := id } }

/-- A run configuration doing plain Ewald only. -/
def cfgEwaldOnly : LongRangeConfig :=
  { eelPme := false, eelEwald := true, vdwPme := false, rankHasPmeDuty := false,
    pmeRunModeCpu := false, haveEwaldSurfaceTerm := false, n_tpi := 0, nthread_ewc := 1 }

/-- A run configuration doing CPU PME with no surface term. -/
def cfgPmeCpu : LongRangeConfig :=
  { eelPme := true, eelEwald := false, vdwPme := false, rankHasPmeDuty := true,
    pmeRunModeCpu := true, haveEwaldSurfaceTerm := false, n_tpi := 0, nthread_ewc := 1 }

/-- A run configuration doing CPU PME with an active surface term. -/
def cfgPmeSurface : LongRangeConfig :=
  { eelPme := true, eelEwald := false, vdwPme := false, rankHasPmeDuty := true,
    pmeRunModeCpu := true, haveEwaldSurfaceTerm := true, n_tpi := 0, nthread_ewc := 2 }

/-- A step workload computing nonbonded forces. -/
def stepWorkAll : StepWorkload := { computeNonbondedForces := true, stateChanged := true }

/-- External results whose first surface thread raises an exception. -/
def extSurfaceRaises : Externals :=
  { extSample with surfaceWork := fun _ => none }

/-- External results where the reciprocal solver returns status 1. -/
def extPmeFails : Externals :=
  { extSample with pmeDo := { extSample.pmeDo with status := 1 } }

/-! ## Reduction layer -/

lemma ewcSum_one (ewc_t : ℕ → ewald_corr_thread_t) : ewcSum 1 ewc_t = ewc_t 0 := by
  unfold ewcSum
  ext <;> simp

lemma accumEwc_ewcSum (n : ℕ) (ewc_t : ℕ → ewald_corr_thread_t) :
    accumEwc (ewcSum n ewc_t) (ewc_t n) = ewcSum (n + 1) ewc_t := by
  unfold ewcSum accumEwc m_add
  ext <;> simp [Finset.sum_range_succ]

lemma foldl_accumEwc_range' (m : ℕ) (ewc_t : ℕ → ewald_corr_thread_t) :
    (List.range' 1 m).foldl (fun dest t => accumEwc dest (ewc_t t)) (ewc_t 0)
      = ewcSum (m + 1) ewc_t := by
  induction m with
  | zero => simp [ewcSum_one]
  | succ k ih =>
      have hconcat : List.range' 1 (k + 1) = List.range' 1 k ++ [1 + k] := by
        simpa using @List.range'_concat 1 1 k
      rw [hconcat, List.foldl_append, ih]
      simpa [Nat.add_comm 1 k] using accumEwc_ewcSum (k + 1) ewc_t

/-- C2: for every `nthreads >= 1` and per-thread record array, after
`reduceEwaldThreadOuput(nthreads, ewc_t)` the record at index 0 holds, in
each field (both correction energies, both dV/dlambda entries, and
element-wise in both virial tensors), the sum of that field over all
`nthreads` records. -/
theorem reduceEwaldThreadOuput_sums (nthreads : ℕ) (h : 1 ≤ nthreads)
    (ewc_t : ℕ → ewald_corr_thread_t) :
    reduceEwaldThreadOuput nthreads ewc_t 0 = ewcSum nthreads ewc_t := by
  unfold reduceEwaldThreadOuput
  obtain ⟨m, rfl⟩ : ∃ m, nthreads = m + 1 := ⟨nthreads - 1, (Nat.succ_pred_eq_of_pos h).symm⟩
  simpa using foldl_accumEwc_range' m ewc_t

theorem reduceEwaldThreadOuput_sums_witness :
    1 ≤ 2 ∧ reduceEwaldThreadOuput 2 ewcSample 0 = ewcSum 2 ewcSample :=
  ⟨by norm_num, reduceEwaldThreadOuput_sums 2 (by norm_num) ewcSample⟩

/-- C10: `reduceEwaldThreadOuput` writes only the record at index 0; every
record at a positive index is left unchanged, in all its fields. -/
theorem reduceEwaldThreadOuput_frame (nthreads i : ℕ) (h : 1 ≤ i)
    (ewc_t : ℕ → ewald_corr_thread_t) :
    reduceEwaldThreadOuput nthreads ewc_t i = ewc_t i := by
  unfold reduceEwaldThreadOuput
  rw [if_neg (by omega)]

theorem reduceEwaldThreadOuput_frame_witness :
    1 ≤ 1 ∧ reduceEwaldThreadOuput 2 ewcSample 1 = ewcSample 1 :=
  ⟨le_refl 1, reduceEwaldThreadOuput_frame 2 1 (le_refl 1) ewcSample⟩

/-! ## Splitting function and net-charge correction (spec-modelled) -/

/-- C4: for positive `beta` and `r`, the splitting function
`v_q_ewald_lr(beta, r)` returns `erfc(beta * r) / r`; equivalently, its
value times `r` is exactly `erfc(beta * r)`. -/
theorem v_q_ewald_lr_spec (beta r : ℝ) (hb : 0 < beta) (hr : 0 < r) :
    v_q_ewald_lr beta r = erfc (beta * r) / r ∧
    v_q_ewald_lr beta r * r = erfc (beta * r) := by
  refine ⟨rfl, ?_⟩
  unfold v_q_ewald_lr
  field_simp

theorem v_q_ewald_lr_spec_witness :
    v_q_ewald_lr 1 1 = erfc (1 * 1) / 1 ∧ v_q_ewald_lr 1 1 * 1 = erfc (1 * 1) :=
  v_q_ewald_lr_spec 1 1 (by norm_num) (by norm_num)

/-- C3: for a system of zero total charge `ewald_charge_correction`
returns energy 0 and a zero virial tensor, for any box volume; for
non-zero total charge `Q` and volume `V`, the correction energy is
`-(pi / (2 beta^2 V)) * Q^2` times the Coulomb constant. -/
theorem ewald_charge_correction_spec (coulombK beta vol Q : ℝ) (hQ : Q ≠ 0) :
    (ewald_charge_correction coulombK beta 0 vol).1 = 0 ∧
    (ewald_charge_correction coulombK beta 0 vol).2 = clear_mat ∧
    (ewald_charge_correction coulombK beta Q vol).1
      = -(Real.pi / (2 * beta ^ 2 * vol)) * Q ^ 2 * coulombK := by
  refine ⟨by simp [ewald_charge_correction], ?_, rfl⟩
  funext i j
  simp [ewald_charge_correction, clear_mat]

theorem ewald_charge_correction_spec_witness :
    (ewald_charge_correction 1 1 0 1).1 = 0 ∧
    (ewald_charge_correction 1 1 0 1).2 = clear_mat ∧
    (ewald_charge_correction 1 1 1 1).1 = -(Real.pi / (2 * 1 ^ 2 * 1)) * 1 ^ 2 * 1 :=
  ewald_charge_correction_spec 1 1 1 1 (by norm_num)

/-! ## Clearing protocol, merge, determinism -/

/-- C5: in the per-thread dispatch, every per-thread record is all-zero
before its owning thread writes: the caller clears thread 0's record once
before the parallel region (`clearThreadZero`), and every thread `t > 0`
clears its own record as its first action inside the region
(`threadPreWriteRecord`), so the record each thread starts from has every
energy, dV/dlambda and virial entry equal to zero. -/
theorem threadRecordsZeroBeforeWrite (ewc0 : ℕ → ewald_corr_thread_t) (t : ℕ) :
    threadPreWriteRecord (clearThreadZero ewc0) t
      = { Vcorr_q := 0, Vcorr_lj := 0, dvdlCoul := 0, dvdlVdw := 0,
          vir_q := fun _ _ => 0, vir_lj := fun _ _ => 0 } ∧
    clearThreadZero ewc0 0 = clearEwaldThreadOutput := by
  constructor
  · unfold threadPreWriteRecord clearThreadZero
    split <;> rfl
  · rfl

/-- C9: the force evaluation is deterministic: two invocations of
`calculateLongRangeNonbondeds` from identical initial states (same
configuration, step flags, external sub-computation results, accumulator
contents, per-thread records and force buffer) produce identical outputs:
the same forces, energy-term entries, virial and dV/dlambda
contributions, per-thread records and trace. -/
theorem calculateLongRangeNonbondeds_deterministic
    (c1 c2 : LongRangeConfig) (sw1 sw2 : StepWorkload) (ext1 ext2 : Externals)
    (acc1 acc2 : Accumulators) (ewc1 ewc2 : ℕ → ewald_corr_thread_t) (f1 f2 : Forces)
    (hc : c1 = c2) (hsw : sw1 = sw2) (hext : ext1 = ext2) (hacc : acc1 = acc2)
    (hewc : ewc1 = ewc2) (hf : f1 = f2) :
    calculateLongRangeNonbondeds c1 sw1 ext1 acc1 ewc1 f1
      = calculateLongRangeNonbondeds c2 sw2 ext2 acc2 ewc2 f2 := by
  subst hc hsw hext hacc hewc hf
  rfl

theorem calculateLongRangeNonbondeds_deterministic_witness :
    calculateLongRangeNonbondeds cfgPmeCpu stepWorkAll extSample accSample ewcSample forcesSample
      = calculateLongRangeNonbondeds cfgPmeCpu stepWorkAll extSample accSample ewcSample
          forcesSample :=
  calculateLongRangeNonbondeds_deterministic cfgPmeCpu cfgPmeCpu stepWorkAll stepWorkAll
    extSample extSample accSample accSample ewcSample ewcSample forcesSample forcesSample
    rfl rfl rfl rfl rfl rfl

/-- C1: when the long-range branch runs and completes without a fatal
abort, the caller's `F_COUL_RECIP` energy-term slot equals the reciprocal
energy `Vlr_q` plus the reduced correction energy `Vcorr_q`, the
`F_LJ_RECIP` slot equals `Vlr_lj` plus `Vcorr_lj`, both reduced virial
tensors are added to the caller's virial accumulator, and the reduced
Coulomb and Vdw dV/dlambda terms are added to the caller's `dvdl_lin`
accumulators. -/
theorem calculateLongRangeNonbondeds_merge (c : LongRangeConfig) (sw : StepWorkload)
    (ext : Externals) (acc0 : Accumulators) (ewc0 : ℕ → ewald_corr_thread_t) (f0 : Forces)
    (hg : longRangeGuard c sw = true)
    (hb : (longRangeBranch c sw ext ewc0 f0).fatal = false) :
    (calculateLongRangeNonbondeds c sw ext acc0 ewc0 f0).acc.termCoulRecip
        = (longRangeBranch c sw ext ewc0 f0).Vlr_q
          + ((longRangeBranch c sw ext ewc0 f0).ewc 0).Vcorr_q ∧
    (calculateLongRangeNonbondeds c sw ext acc0 ewc0 f0).acc.termLJRecip
        = (longRangeBranch c sw ext ewc0 f0).Vlr_lj
          + ((longRangeBranch c sw ext ewc0 f0).ewc 0).Vcorr_lj ∧
    (calculateLongRangeNonbondeds c sw ext acc0 ewc0 f0).acc.virial
        = m_add (m_add acc0.virial ((longRangeBranch c sw ext ewc0 f0).ewc 0).vir_q)
            ((longRangeBranch c sw ext ewc0 f0).ewc 0).vir_lj ∧
    (calculateLongRangeNonbondeds c sw ext acc0 ewc0 f0).acc.dvdlLinCoul
        = acc0.dvdlLinCoul + ((longRangeBranch c sw ext ewc0 f0).ewc 0).dvdlCoul ∧
    (calculateLongRangeNonbondeds c sw ext acc0 ewc0 f0).acc.dvdlLinVdw
        = acc0.dvdlLinVdw + ((longRangeBranch c sw ext ewc0 f0).ewc 0).dvdlVdw := by
  unfold calculateLongRangeNonbondeds
  rw [if_pos hg]
  simp [hb, mergeLongRangeOutputs]

theorem calculateLongRangeNonbondeds_merge_witness :
    (calculateLongRangeNonbondeds cfgEwaldOnly stepWorkAll extSample accSample ewcSample
        forcesSample).acc.termCoulRecip
        = (longRangeBranch cfgEwaldOnly stepWorkAll extSample ewcSample forcesSample).Vlr_q
          + ((longRangeBranch cfgEwaldOnly stepWorkAll extSample ewcSample
              forcesSample).ewc 0).Vcorr_q ∧
    (calculateLongRangeNonbondeds cfgEwaldOnly stepWorkAll extSample accSample ewcSample
        forcesSample).acc.termLJRecip
        = (longRangeBranch cfgEwaldOnly stepWorkAll extSample ewcSample forcesSample).Vlr_lj
          + ((longRangeBranch cfgEwaldOnly stepWorkAll extSample ewcSample
              forcesSample).ewc 0).Vcorr_lj ∧
    (calculateLongRangeNonbondeds cfgEwaldOnly stepWorkAll extSample accSample ewcSample
        forcesSample).acc.virial
        = m_add (m_add accSample.virial ((longRangeBranch cfgEwaldOnly stepWorkAll extSample
            ewcSample forcesSample).ewc 0).vir_q)
            ((longRangeBranch cfgEwaldOnly stepWorkAll extSample ewcSample
              forcesSample).ewc 0).vir_lj ∧
    (calculateLongRangeNonbondeds cfgEwaldOnly stepWorkAll extSample accSample ewcSample
        forcesSample).acc.dvdlLinCoul
        = accSample.dvdlLinCoul + ((longRangeBranch cfgEwaldOnly stepWorkAll extSample ewcSample
            forcesSample).ewc 0).dvdlCoul ∧
    (calculateLongRangeNonbondeds cfgEwaldOnly stepWorkAll extSample accSample ewcSample
        forcesSample).acc.dvdlLinVdw
        = accSample.dvdlLinVdw + ((longRangeBranch cfgEwaldOnly stepWorkAll extSample ewcSample
            forcesSample).ewc 0).dvdlVdw :=
  calculateLongRangeNonbondeds_merge cfgEwaldOnly stepWorkAll extSample accSample ewcSample
    forcesSample rfl rfl

/-! ## Trace structure of the orchestration -/

lemma ewaldPhase_trace_shape (c : LongRangeConfig) (ext : Externals)
    (ewc : ℕ → ewald_corr_thread_t) (vq vlj : ℝ) (f : Forces) (tr : List Event) :
    ∃ s, (ewaldPhase c ext ewc vq vlj f tr).trace = tr ++ s
      ∧ Event.surfaceDispatch ∉ s ∧ Event.mergeOutputs ∉ s ∧ Event.pmeDoCall ∉ s := by
  unfold ewaldPhase
  split
  · exact ⟨[Event.doEwaldCall], rfl, by simp, by simp, by simp⟩
  · exact ⟨[], by simp, by simp, by simp, by simp⟩

lemma tpiPhase_trace_shape (c : LongRangeConfig) (ext : Externals)
    (ewc : ℕ → ewald_corr_thread_t) (vq vlj : ℝ) (f : Forces) (tr : List Event) :
    ∃ s, (tpiPhase c ext ewc vq vlj f tr).trace = tr ++ s
      ∧ Event.surfaceDispatch ∉ s ∧ Event.mergeOutputs ∉ s ∧ Event.pmeDoCall ∉ s := by
  unfold tpiPhase
  split
  · obtain ⟨s, hs, h1, h2, h3⟩ :=
      ewaldPhase_trace_shape c ext ewc ext.pmeTpiEnergy vlj f (tr ++ [Event.pmeCalcEnergy])
    exact ⟨Event.pmeCalcEnergy :: s, by simpa using hs, by simp [h1], by simp [h2], by simp [h3]⟩
  · exact ewaldPhase_trace_shape c ext ewc vq vlj f tr

lemma pmePhase_trace_shape (c : LongRangeConfig) (sw : StepWorkload) (ext : Externals)
    (ewc : ℕ → ewald_corr_thread_t) (f : Forces) (tr : List Event) :
    ∃ s, (pmePhase c sw ext ewc f tr).trace = tr ++ s
      ∧ Event.surfaceDispatch ∉ s ∧ Event.mergeOutputs ∉ s
      ∧ (Event.pmeDoCall ∈ s →
          ∃ s1 s2, s = s1 ++ Event.closeDDBalanceRegion :: Event.pmeDoCall :: s2) := by
  by_cases hP : computePmeOnCpu c = true
  · by_cases hT : (decide (c.n_tpi = 0) || sw.stateChanged) = true
    · by_cases hE : ext.pmeDo.status = 0
      · obtain ⟨s, hs, h1, h2, h3⟩ :=
          tpiPhase_trace_shape c ext (updEwc0 ewc (applyPmeDo ext.pmeDo)) ext.pmeDo.Vlr_q
            ext.pmeDo.Vlr_lj (ext.pmeDo.forceUpdate f)
            (tr ++ [Event.closeDDBalanceRegion, Event.pmeDoCall])
        refine ⟨Event.closeDDBalanceRegion :: Event.pmeDoCall :: s, ?_, by simp [h1],
          by simp [h2], fun _ => ⟨[], s, by simp⟩⟩
        simp only [pmePhase, hP, hT, hE]
        simpa using hs
      · refine ⟨[Event.closeDDBalanceRegion, Event.pmeDoCall], ?_, by simp, by simp,
          fun _ => ⟨[], [], by simp⟩⟩
        simp [pmePhase, hP, hT, hE]
    · obtain ⟨s, hs, h1, h2, h3⟩ := tpiPhase_trace_shape c ext ewc 0 0 f tr
      refine ⟨s, ?_, h1, h2, fun hmem => absurd hmem h3⟩
      simp only [pmePhase, hP, hT]
      exact hs
  · obtain ⟨s, hs, h1, h2, h3⟩ := ewaldPhase_trace_shape c ext ewc 0 0 f tr
    refine ⟨s, ?_, h1, h2, fun hmem => absurd hmem h3⟩
    simp only [pmePhase, hP]
    exact hs

lemma afterSurface_trace_shape (c : LongRangeConfig) (sw : StepWorkload) (ext : Externals)
    (ewc : ℕ → ewald_corr_thread_t) (f : Forces) (tr : List Event) :
    ∃ s, (afterSurface c sw ext ewc f tr).trace = tr ++ s
      ∧ Event.surfaceDispatch ∉ s ∧ Event.mergeOutputs ∉ s
      ∧ (Event.pmeDoCall ∈ s →
          ∃ s1 s2, s = s1 ++ Event.closeDDBalanceRegion :: Event.pmeDoCall :: s2) := by
  unfold afterSurface
  split
  · obtain ⟨s, hs, h1, h2, h3⟩ :=
      pmePhase_trace_shape c sw ext (updEwc0 ewc (applyChargeCorr ext.chargeCorr)) f
        (tr ++ [Event.chargeCorrection])
    refine ⟨Event.chargeCorrection :: s, by simpa using hs, by simp [h1], by simp [h2], ?_⟩
    intro hmem
    have hmem' : Event.pmeDoCall ∈ s := by simpa using hmem
    obtain ⟨s1, s2, rfl⟩ := h3 hmem'
    exact ⟨Event.chargeCorrection :: s1, s2, by simp⟩
  · exact pmePhase_trace_shape c sw ext ewc f tr

lemma longRangeBranch_trace_shape (c : LongRangeConfig) (sw : StepWorkload) (ext : Externals)
    (ewc0 : ℕ → ewald_corr_thread_t) (f0 : Forces) :
    ∃ s, (longRangeBranch c sw ext ewc0 f0).trace
        = (if ((eelPmeEwald c || c.vdwPme) && c.haveEwaldSurfaceTerm) = true
           then [Event.surfaceDispatch] else []) ++ s
      ∧ Event.surfaceDispatch ∉ s ∧ Event.mergeOutputs ∉ s
      ∧ (Event.pmeDoCall ∈ s →
          ∃ s1 s2, s = s1 ++ Event.closeDDBalanceRegion :: Event.pmeDoCall :: s2) := by
  by_cases hA : (eelPmeEwald c || c.vdwPme) = true
  · by_cases hS : c.haveEwaldSurfaceTerm = true
    · by_cases hR : surfaceWorkRaises ext.surfaceWork c.nthread_ewc = true
      · refine ⟨[], ?_, by simp, by simp, by simp⟩
        simp [longRangeBranch, hA, hS, hR]
      · obtain ⟨s, hs, h1, h2, h3⟩ :=
          afterSurface_trace_shape c sw ext
            (if 1 < c.nthread_ewc then
              reduceEwaldThreadOuput c.nthread_ewc
                (surfaceDispatchRecords c.nthread_ewc ext.surfaceWork (clearThreadZero ewc0))
             else surfaceDispatchRecords c.nthread_ewc ext.surfaceWork (clearThreadZero ewc0))
            (ext.surfaceForces f0) [Event.surfaceDispatch]
        refine ⟨s, ?_, h1, h2, h3⟩
        simp only [longRangeBranch, hA, hS, hR]
        simp only [if_true, Bool.and_self, hA, hS]
        simpa using hs
    · obtain ⟨s, hs, h1, h2, h3⟩ :=
        afterSurface_trace_shape c sw ext (clearThreadZero ewc0) f0 []
      refine ⟨s, ?_, h1, h2, h3⟩
      simp only [longRangeBranch, hA, hS]
      simp [hA, hS]
      simpa using hs
  · obtain ⟨s, hs, h1, h2, h3⟩ := ewaldPhase_trace_shape c ext (clearThreadZero ewc0) 0 0 f0 []
    refine ⟨s, ?_, h1, h2, fun hmem => absurd hmem h3⟩
    simp only [longRangeBranch, hA]
    simp [hA]
    simpa using hs

/-- C6: in every execution of `calculateLongRangeNonbondeds` that performs
the CPU reciprocal solve, the domain-decomposition load-balance region is
closed (`ddBalanceRegionHandler.closeAfterForceComputationCpu`) strictly
before — in fact immediately before — the reciprocal solver `gmx_pme_do`
is invoked. -/
theorem ddBalanceRegionClosedBeforePme (c : LongRangeConfig) (sw : StepWorkload)
    (ext : Externals) (acc0 : Accumulators) (ewc0 : ℕ → ewald_corr_thread_t) (f0 : Forces)
    (h : Event.pmeDoCall ∈ (calculateLongRangeNonbondeds c sw ext acc0 ewc0 f0).trace) :
    ∃ l1 l2, (calculateLongRangeNonbondeds c sw ext acc0 ewc0 f0).trace
      = l1 ++ Event.closeDDBalanceRegion :: Event.pmeDoCall :: l2 := by
  by_cases hg : longRangeGuard c sw = true
  · obtain ⟨s, hs, _, _, h3⟩ := longRangeBranch_trace_shape c sw ext ewc0 f0
    by_cases hf : (longRangeBranch c sw ext ewc0 f0).fatal = true
    · have htr : (calculateLongRangeNonbondeds c sw ext acc0 ewc0 f0).trace
          = (longRangeBranch c sw ext ewc0 f0).trace ++ [Event.fatalError] := by
        simp [calculateLongRangeNonbondeds, hg, hf]
      rw [htr] at h ⊢
      rw [hs] at h ⊢
      have hmem : Event.pmeDoCall ∈ s := by
        rcases List.mem_append.mp h with h' | h'
        · rcases List.mem_append.mp h' with h'' | h''
          · exfalso
            revert h''
            split <;> simp
          · exact h''
        · simp at h'
      obtain ⟨s1, s2, rfl⟩ := h3 hmem
      refine ⟨(if ((eelPmeEwald c || c.vdwPme) && c.haveEwaldSurfaceTerm) = true
          then [Event.surfaceDispatch] else []) ++ s1,
        s2 ++ [Event.fatalError], by simp⟩
    · have htr : (calculateLongRangeNonbondeds c sw ext acc0 ewc0 f0).trace
          = (longRangeBranch c sw ext ewc0 f0).trace ++ [Event.mergeOutputs] := by
        simp [calculateLongRangeNonbondeds, hg, hf]
      rw [htr] at h ⊢
      rw [hs] at h ⊢
      have hmem : Event.pmeDoCall ∈ s := by
        rcases List.mem_append.mp h with h' | h'
        · rcases List.mem_append.mp h' with h'' | h''
          · exfalso
            revert h''
            split <;> simp
          · exact h''
        · simp at h'
      obtain ⟨s1, s2, rfl⟩ := h3 hmem
      refine ⟨(if ((eelPmeEwald c || c.vdwPme) && c.haveEwaldSurfaceTerm) = true
          then [Event.surfaceDispatch] else []) ++ s1,
        s2 ++ [Event.mergeOutputs], by simp⟩
  · rw [show (calculateLongRangeNonbondeds c sw ext acc0 ewc0 f0).trace = [] by
      simp [calculateLongRangeNonbondeds, hg]] at h
    simp at h

theorem ddBalanceRegionClosedBeforePme_witness :
    Event.pmeDoCall ∈ (calculateLongRangeNonbondeds cfgPmeCpu stepWorkAll extSample accSample
        ewcSample forcesSample).trace ∧
    ∃ l1 l2, (calculateLongRangeNonbondeds cfgPmeCpu stepWorkAll extSample accSample
        ewcSample forcesSample).trace
      = l1 ++ Event.closeDDBalanceRegion :: Event.pmeDoCall :: l2 :=
  ⟨by decide, ddBalanceRegionClosedBeforePme cfgPmeCpu stepWorkAll extSample accSample
      ewcSample forcesSample (by decide)⟩

lemma pmePhase_fatal (c : LongRangeConfig) (sw : StepWorkload) (ext : Externals)
    (ewc : ℕ → ewald_corr_thread_t) (f : Forces) (tr : List Event)
    (hP : computePmeOnCpu c = true) (hT : (decide (c.n_tpi = 0) || sw.stateChanged) = true)
    (hE : ¬ext.pmeDo.status = 0) :
    (pmePhase c sw ext ewc f tr).fatal = true := by
  simp [pmePhase, hP, hT, hE]

lemma afterSurface_fatal (c : LongRangeConfig) (sw : StepWorkload) (ext : Externals)
    (ewc : ℕ → ewald_corr_thread_t) (f : Forces) (tr : List Event)
    (hP : computePmeOnCpu c = true) (hT : (decide (c.n_tpi = 0) || sw.stateChanged) = true)
    (hE : ¬ext.pmeDo.status = 0) :
    (afterSurface c sw ext ewc f tr).fatal = true := by
  unfold afterSurface
  split
  · exact pmePhase_fatal c sw ext _ f _ hP hT hE
  · exact pmePhase_fatal c sw ext ewc f tr hP hT hE

lemma longRangeBranch_fatal_surface (c : LongRangeConfig) (sw : StepWorkload) (ext : Externals)
    (ewc0 : ℕ → ewald_corr_thread_t) (f0 : Forces)
    (hA : (eelPmeEwald c || c.vdwPme) = true) (hS : c.haveEwaldSurfaceTerm = true)
    (hR : surfaceWorkRaises ext.surfaceWork c.nthread_ewc = true) :
    (longRangeBranch c sw ext ewc0 f0).fatal = true := by
  simp [longRangeBranch, hA, hS, hR]

lemma longRangeBranch_fatal_pme (c : LongRangeConfig) (sw : StepWorkload) (ext : Externals)
    (ewc0 : ℕ → ewald_corr_thread_t) (f0 : Forces)
    (hA : (eelPmeEwald c || c.vdwPme) = true) (hP : computePmeOnCpu c = true)
    (hT : (decide (c.n_tpi = 0) || sw.stateChanged) = true)
    (hE : ¬ext.pmeDo.status = 0) :
    (longRangeBranch c sw ext ewc0 f0).fatal = true := by
  by_cases hS : c.haveEwaldSurfaceTerm = true
  · by_cases hR : surfaceWorkRaises ext.surfaceWork c.nthread_ewc = true
    · exact longRangeBranch_fatal_surface c sw ext ewc0 f0 hA hS hR
    · simp only [longRangeBranch, hA, hS, hR, Bool.false_eq_true, if_false, if_true]
      exact afterSurface_fatal c sw ext _ _ _ hP hT hE
  · simp only [longRangeBranch, hA, hS, Bool.false_eq_true, if_false, if_true]
    exact afterSurface_fatal c sw ext _ _ _ hP hT hE

lemma longRangeBranch_no_merge (c : LongRangeConfig) (sw : StepWorkload) (ext : Externals)
    (ewc0 : ℕ → ewald_corr_thread_t) (f0 : Forces) :
    Event.mergeOutputs ∉ (longRangeBranch c sw ext ewc0 f0).trace := by
  obtain ⟨s, hs, _, h2, _⟩ := longRangeBranch_trace_shape c sw ext ewc0 f0
  rw [hs]
  intro hmem
  rcases List.mem_append.mp hmem with h' | h'
  · revert h'
    split <;> simp
  · exact h2 h'

/-- C7: if any per-thread unit of correction work raises an exception, the
entire step aborts with a fatal error and nothing is merged into the
caller's accumulators; likewise a non-zero status from the reciprocal
solver escalates to a fatal error before any merge. -/
theorem fatalAbortsWithoutMerge (c : LongRangeConfig) (sw : StepWorkload) (ext : Externals)
    (acc0 : Accumulators) (ewc0 : ℕ → ewald_corr_thread_t) (f0 : Forces)
    (h : surfaceAbortCondition c sw ext = true ∨ pmeStatusAbortCondition c sw ext = true) :
    (calculateLongRangeNonbondeds c sw ext acc0 ewc0 f0).fatal = true ∧
    (calculateLongRangeNonbondeds c sw ext acc0 ewc0 f0).acc = acc0 ∧
    Event.mergeOutputs ∉ (calculateLongRangeNonbondeds c sw ext acc0 ewc0 f0).trace := by
  have hfatal : longRangeGuard c sw = true ∧ (longRangeBranch c sw ext ewc0 f0).fatal = true := by
    rcases h with h | h
    · simp only [surfaceAbortCondition, Bool.and_eq_true] at h
      exact ⟨h.1.1.1, longRangeBranch_fatal_surface c sw ext ewc0 f0 h.1.1.2 h.1.2 h.2⟩
    · simp only [pmeStatusAbortCondition, Bool.and_eq_true] at h
      refine ⟨h.1.1.1.1, longRangeBranch_fatal_pme c sw ext ewc0 f0 h.1.1.1.2 h.1.1.2 h.1.2 ?_⟩
      simpa using h.2
  refine ⟨?_, ?_, ?_⟩ <;>
    simp [calculateLongRangeNonbondeds, hfatal.1, hfatal.2,
      longRangeBranch_no_merge c sw ext ewc0 f0]

theorem fatalAbortsWithoutMerge_witness :
    (surfaceAbortCondition cfgPmeSurface stepWorkAll extSurfaceRaises = true ∨
      pmeStatusAbortCondition cfgPmeSurface stepWorkAll extSurfaceRaises = true) ∧
    (calculateLongRangeNonbondeds cfgPmeSurface stepWorkAll extSurfaceRaises accSample
        ewcSample forcesSample).fatal = true ∧
    (calculateLongRangeNonbondeds cfgPmeSurface stepWorkAll extSurfaceRaises accSample
        ewcSample forcesSample).acc = accSample ∧
    Event.mergeOutputs ∉ (calculateLongRangeNonbondeds cfgPmeSurface stepWorkAll
        extSurfaceRaises accSample ewcSample forcesSample).trace :=
  ⟨Or.inl (by decide),
    fatalAbortsWithoutMerge cfgPmeSurface stepWorkAll extSurfaceRaises accSample ewcSample
      forcesSample (Or.inl (by decide))⟩

